import Mathlib

/-!
Verification of the register discovery, reading and decoding layer of
`main.py` (Modbus exporter GUI).

The Python code is shallowly embedded: the injected Modbus register reader
becomes a function `Reader`; a successful read returns `some words`
(each word an unsigned 16-bit value as a `Nat`), a failed read returns
`none` (the code's `read_registers` returns `None` on any exception).
Python floats are modelled as `PyFloat` (exact rationals plus the special
values); a Python exception escaping a modelled function is an
`Except.error`.
-/

/-- The injected register-reader capability: device address, start register,
count ↦ the raw words (`some`) or a read failure (`none`), mirroring
`read_registers` in `main.py` which returns `result.registers` or `None`. -/
def Reader : Type := Nat → Nat → Nat → Option (List Nat)

/-- A reader obeying the Modbus read contract (spec §3 `RegisterReadResult`):
a successful read returns exactly `count` words, each an unsigned
16-bit value. -/
def WFReader (reader : Reader) : Prop :=
  ∀ dev addr count regs, reader dev addr count = some regs →
    regs.length = count ∧ ∀ w ∈ regs, w < 65536

/-- Characters stripped by Python's `str.strip()` within the Latin-1 range. -/
def isPySpace (c : Char) : Bool :=
  let n := c.toNat
  decide ((9 ≤ n ∧ n ≤ 13) ∨ (28 ≤ n ∧ n ≤ 31) ∨ n = 32 ∨ n = 133 ∨ n = 160)

/-- Python `str.strip()` on a character list: drop whitespace at both ends. -/
def py_strip (l : List Char) : List Char :=
  ((l.dropWhile isPySpace).reverse.dropWhile isPySpace).reverse

/-- The two characters contributed by one 16-bit register in
`decode_ascii_tuple`: `chr((reg >> 8) & 0xFF) + chr(reg & 0xFF)`. -/
def word_chars (reg : Nat) : List Char :=
  [Char.ofNat ((reg >>> 8) &&& 0xFF), Char.ofNat (reg &&& 0xFF)]

/-- `decode_ascii_tuple` from `main.py`: join the per-register character
pairs, take the prefix before the first NUL (`.split("\x00")[0]`),
then `.strip()`. -/
def decode_ascii_tuple (registers : List Nat) : String :=
  String.mk (py_strip (((registers.map word_chars).flatten).takeWhile
    (fun c => c ≠ Char.ofNat 0)))

/-- `decode_ascii_cached` from `main.py`: empty (or absent) register list
decodes to `""`, otherwise defer to `decode_ascii_tuple`. -/
def decode_ascii_cached (registers : List Nat) : String :=
  match registers with
  | [] => ""
  | r :: rs => decode_ascii_tuple (r :: rs)

/-- A Python float: exact finite value, infinities, or NaN. -/
inductive PyFloat where
  | finite (q : ℚ)
  | inf
  | negInf
  | nan
deriving DecidableEq

/-- Reinterpret a 32-bit pattern as an IEEE-754 single-precision value
(the effect of `struct.unpack('!f', struct.pack('!I', combined))`).
Normal values are `(2^23 + m) * 2^e / 2^150`, subnormals `m * 2 / 2^150`. -/
def f32_of_bits (bits : Nat) : PyFloat :=
  let s := bits / 2 ^ 31 % 2
  let e := bits / 2 ^ 23 % 2 ^ 8
  let m := bits % 2 ^ 23
  if e = 255 then
    if m = 0 then (if s = 1 then PyFloat.negInf else PyFloat.inf)
    else PyFloat.nan
  else
    let mag : ℚ :=
      if e = 0 then (m * 2 : ℕ) / (2 ^ 150 : ℚ)
      else ((2 ^ 23 + m) * 2 ^ e : ℕ) / (2 ^ 150 : ℚ)
    PyFloat.finite (if s = 1 then -mag else mag)

/-- `decode_float32` from `main.py`: requires a truthy list of exactly two
words (`if registers and len(registers) == 2`), combines them as
`(registers[0] << 16) | registers[1]` and reinterprets as IEEE-754
single precision; any other shape yields `None`. -/
def decode_float32 (registers : List Nat) : Option PyFloat :=
  match registers with
  | [w0, w1] => some (f32_of_bits ((w0 <<< 16) ||| w1))
  | _ => none

/-- Round-half-to-even on an exact rational, the idealisation of Python's
`round` on a float. -/
def round_half_even (x : ℚ) : ℤ :=
  let f := ⌊x⌋
  let r := x - f
  if r < 1 / 2 then f
  else if 1 / 2 < r then f + 1
  else if f % 2 = 0 then f else f + 1

/-- Python `round(x, 2)`: round a finite value to the nearest multiple of
1/100 (ties to even); NaN and infinities are returned unchanged. -/
def round2 : PyFloat → PyFloat
  | .finite q => .finite ((round_half_even (q * 100) : ℚ) / 100)
  | f => f

/-- Uppercase hex digit for `n < 16`. -/
def hexChar (n : Nat) : Char :=
  if n < 10 then Char.ofNat (48 + n) else Char.ofNat (55 + n)

/-- Hex digits of `n`, least significant first, with fuel. -/
def hexRevAux : Nat → Nat → List Char
  | 0, _ => []
  | fuel + 1, n =>
    if n = 0 then [] else hexChar (n % 16) :: hexRevAux fuel (n / 16)

/-- Python `f"{reg:04X}"` for the 16-bit register values handled here:
uppercase hex, left-padded with zeros to at least four digits. -/
def hex4 (n : Nat) : String :=
  let ds := (hexRevAux 8 n).reverse
  String.mk (List.replicate (4 - ds.length) '0' ++ ds)

/-- Concatenation of a list of strings (Python `"".join`). -/
def sjoin (l : List String) : String := l.foldl (· ++ ·) ""

/-- The RFID hex decode from `collect_data` / `_collect_live_diagnostics_data`:
`"".join(f"{reg:04X}" for reg in rfid_regs if reg > 0)[:8]` — every zero
word is dropped, the rest are formatted as 4 uppercase hex digits in
register order, and the result is truncated to 8 characters. -/
def rfid_hex (regs : List Nat) : String :=
  (sjoin ((regs.filter (fun r => 0 < r)).map hex4)).take 8

/-- An argument of `get_signal_quality`, abstracted by its behaviour under
Python's `float()`: the value is `None`; `float()` raises
(`ValueError`/`TypeError`, e.g. the string `"N/A"`); or `float()` yields
a float value (ints convert exactly, floats pass through). -/
inductive SQArg where
  | noneV
  | nonNum
  | val (f : PyFloat)
deriving DecidableEq

/-- The float value of an argument, `none` when `float()` raises. -/
def sq_float : SQArg → Option PyFloat
  | .noneV => none
  | .nonNum => none
  | .val f => some f

/-- IEEE comparison `f > c` against a rational constant (NaN compares false). -/
def pyGtQ : PyFloat → ℚ → Bool
  | .finite q, c => decide (c < q)
  | .inf, _ => true
  | .negInf, _ => false
  | .nan, _ => false

/-- IEEE comparison `f < c` against a rational constant (NaN compares false). -/
def pyLtQ : PyFloat → ℚ → Bool
  | .finite q, c => decide (q < c)
  | .inf, _ => false
  | .negInf, _ => true
  | .nan, _ => false

/-- IEEE comparison `f ≤ c` against a rational constant (NaN compares false). -/
def pyLeQ : PyFloat → ℚ → Bool
  | .finite q, c => decide (q ≤ c)
  | .inf, _ => false
  | .negInf, _ => true
  | .nan, _ => false

/-- IEEE comparison `f ≥ c` against a rational constant (NaN compares false). -/
def pyGeQ : PyFloat → ℚ → Bool
  | .finite q, c => decide (c ≤ q)
  | .inf, _ => true
  | .negInf, _ => false
  | .nan, _ => false

/-- `get_signal_quality` from `main.py`: `None` arguments and arguments on
which `float()` raises yield `"Unknown"`; NaN (detected via
`str(x).lower() == 'nan'`) yields `"Unknown"`; otherwise the fixed
PER-by-LQI matrix. -/
def get_signal_quality (lqi per : SQArg) : String :=
  if lqi = .noneV ∨ per = .noneV then "Unknown"
  else
    match sq_float lqi, sq_float per with
    | some lf, some pf =>
      if lf = .nan ∨ pf = .nan then "Unknown"
      else if pyGtQ pf 30 then
        if pyLtQ lf 30 then "Weak"
        else if pyLtQ lf 60 then "Weak"
        else "Fair"
      else if pyGtQ pf 10 then
        if pyLtQ lf 30 then "Weak"
        else if pyLtQ lf 60 then "Fair"
        else "Good"
      else
        if pyLtQ lf 30 then "Fair"
        else if pyLtQ lf 60 then "Good"
        else "Excellent"
    | _, _ => "Unknown"

/-- C2's statement of the signal-quality function, written from the claim:
`Unknown` for missing/non-numeric/NaN inputs, otherwise the matrix with
each regime and LQI band spelled out with both bounds (`"unreachable"`
marks cases the claim's case split leaves out; the equivalence theorem
shows they cannot occur). -/
def signal_quality_claim (lqi per : SQArg) : String :=
  match lqi, per with
  | .val lf, .val pf =>
    if lf = .nan ∨ pf = .nan then "Unknown"
    else if pyGtQ pf 30 then
      if pyLtQ lf 30 then "Weak"
      else if pyGeQ lf 30 && pyLtQ lf 60 then "Weak"
      else if pyGeQ lf 60 then "Fair"
      else "unreachable"
    else if pyGtQ pf 10 && pyLeQ pf 30 then
      if pyLtQ lf 30 then "Weak"
      else if pyGeQ lf 30 && pyLtQ lf 60 then "Fair"
      else if pyGeQ lf 60 then "Good"
      else "unreachable"
    else if pyLeQ pf 10 then
      if pyLtQ lf 30 then "Fair"
      else if pyGeQ lf 30 && pyLtQ lf 60 then "Good"
      else if pyGeQ lf 60 then "Excellent"
      else "unreachable"
    else "unreachable"
  | _, _ => "Unknown"

/-- A Python value reaching the human-readable decoders: `None`, an int,
or a string (the register path passes ints and the `"N/A"` sentinel). -/
inductive PyVal where
  | pnone
  | pint (n : Int)
  | pstr (s : String)
deriving DecidableEq

/-- Digit run with single underscores between digits, as accepted by
Python's `int()` after the first digit. -/
def digitsCore : List Char → Nat → Option Nat
  | [], acc => some acc
  | ['_'], _ => none
  | '_' :: c :: rest, acc =>
    if c.isDigit then digitsCore rest (acc * 10 + (c.toNat - 48)) else none
  | c :: rest, acc =>
    if c = '_' then none
    else if c.isDigit then digitsCore rest (acc * 10 + (c.toNat - 48)) else none

/-- A nonempty digit run (underscores allowed between digits). -/
def digitsVal : List Char → Option Nat
  | [] => none
  | c :: rest =>
    if c.isDigit then digitsCore rest (c.toNat - 48) else none

/-- Python `int(s)` on a base-10 string: surrounding whitespace allowed,
optional sign, digits with single underscores between them. -/
def pyIntOfString (s : String) : Option Int :=
  let cs := py_strip s.toList
  match cs with
  | '+' :: rest => (digitsVal rest).map Int.ofNat
  | '-' :: rest => (digitsVal rest).map (fun n => -(n : Int))
  | rest => (digitsVal rest).map Int.ofNat

/-- Python `int(value)` on a decoder argument: ints pass through, strings
are parsed, `None` raises (`none`). -/
def py_int_value : PyVal → Option Int
  | .pnone => none
  | .pint n => some n
  | .pstr s => pyIntOfString s

/-- Python `f"{value}"`: the text interpolated for a value. -/
def pyFmt : PyVal → String
  | .pnone => "None"
  | .pint n => toString n
  | .pstr s => s

/-- `decode_heattag_alarm_type` from `main.py`: `None` and the `"N/A"`
sentinel pass through as `"N/A"`; otherwise `int(value)` is classified
(16–93 checked before 99, 99 before 94–190), and a failed parse yields
`"Invalid (value)"`. -/
def decode_heattag_alarm_type (v : PyVal) : String :=
  if v = .pnone ∨ v = .pstr "N/A" then "N/A"
  else
    match py_int_value v with
    | some n =>
      if n = 0 then "No alarm"
      else if 1 ≤ n ∧ n ≤ 15 then "Low level alarm"
      else if 16 ≤ n ∧ n ≤ 93 then "Medium level alarm"
      else if n = 99 then "Test alarm"
      else if 94 ≤ n ∧ n ≤ 190 then "High level alarm"
      else "Unknown (" ++ toString n ++ ")"
    | none => "Invalid (" ++ pyFmt v ++ ")"

/-- C8's mapping as amended: the ranges as the claim lists them, with the
99 → Test alarm precedence applied by checking 99 first, and with `None`
and the `"N/A"` sentinel passed through as `"N/A"` rather than being
reported invalid. -/
def heattag_alarm_claim (v : PyVal) : String :=
  if v = .pnone ∨ v = .pstr "N/A" then "N/A"
  else
    match py_int_value v with
    | some n =>
      if n = 99 then "Test alarm"
      else if n = 0 then "No alarm"
      else if 1 ≤ n ∧ n ≤ 15 then "Low level alarm"
      else if 16 ≤ n ∧ n ≤ 93 then "Medium level alarm"
      else if 94 ≤ n ∧ n ≤ 190 then "High level alarm"
      else "Unknown (" ++ toString n ++ ")"
    | none => "Invalid (" ++ pyFmt v ++ ")"

/-- A value stored in the diagnostics dict by `read_enhanced_diagnostics`:
a Python int (`regs[0]`), a rounded float, a string (the `"N/A"` sentinel
and the Signal Quality text), or Python `None`. -/
inductive DiagVal where
  | int (n : Nat)
  | float (f : PyFloat)
  | str (s : String)
  | pynone
deriving DecidableEq

/-- The diagnostics dict: an insertion-ordered association list with
unique keys, as a Python dict. -/
abbrev DMap : Type := List (String × DiagVal)

/-- Python dict assignment `m[k] = v`: overwrite in place when the key
exists, otherwise append. -/
def dinsert (m : DMap) (k : String) (v : DiagVal) : DMap :=
  if m.any (fun p => p.1 = k) then
    m.map (fun p => if p.1 = k then (k, v) else p)
  else m ++ [(k, v)]

/-- Python `m.get(k)`: the stored value, or `None` when absent. -/
def dlookup (m : DMap) (k : String) : Option DiagVal :=
  match m with
  | [] => none
  | p :: rest => if p.1 = k then some p.2 else dlookup rest k

/-- How a stored diagnostics value behaves as a `get_signal_quality`
argument. A missing key (`None` from `dict.get`) and a stored `None` are
`None`; ints and floats convert; the only strings this program stores
under diagnostic keys (`"N/A"` and the quality labels) all make
`float()` raise, so strings map to the non-numeric case. -/
def toSQ : Option DiagVal → SQArg
  | none => .noneV
  | some .pynone => .noneV
  | some (.int n) => .val (.finite n)
  | some (.float f) => .val f
  | some (.str _) => .nonNum

/-- The diagnostic register plan built by `read_enhanced_diagnostics`:
eight common fields, plus Battery Voltage for CL110, plus three
HeatTag fields for HeatTag. Tuples are `(addr, count, name, kind)`. -/
def enhanced_registers (device_type : String) :
    List (Nat × Nat × String × String) :=
  [(31144, 1, "RF Communication Validity", "BITMAP"),
   (31145, 1, "Communication Status", "BITMAP"),
   (31151, 2, "Gateway PER", "Float32"),
   (31153, 2, "RSSI", "Float32"),
   (31155, 1, "LQI", "UINT16"),
   (31156, 2, "PER Max", "Float32"),
   (31158, 2, "RSSI Min", "Float32"),
   (31160, 1, "LQI Min", "UINT16")] ++
  (if device_type = "CL110" then [(3315, 2, "Battery Voltage", "Float32")]
   else if device_type = "HeatTag" then
     [(3321, 1, "HeatTag Alarm Type", "UINT16"),
      (3322, 1, "HeatTag Alarm Level", "UINT16"),
      (31175, 1, "HeatTag Operation Mode", "UINT16")]
   else [])

/-- One iteration of the field loop in `read_enhanced_diagnostics`: a falsy
read result (`None` or `[]`) stores `"N/A"`; otherwise the value is
decoded by kind — for `Float32`, `round(decode_float32(regs), 2)`
raises `TypeError` when `decode_float32` returned `None` (wrong word
count), which aborts the whole call. -/
def diag_step (reader : Reader) (device_id : Nat) (diag : DMap)
    (field : Nat × Nat × String × String) : Except String DMap :=
  match field with
  | (addr, count, field_name, field_type) =>
    match reader device_id addr count with
    | some (r :: rest) =>
      if field_type = "Float32" then
        match decode_float32 (r :: rest) with
        | some x => .ok (dinsert diag field_name (.float (round2 x)))
        | none => .error "TypeError: type NoneType doesn't define __round__ method"
      else if field_type = "UINT16" ∨ field_type = "BITMAP" then
        .ok (dinsert diag field_name (.int r))
      else .ok (dinsert diag field_name .pynone)
    | _ => .ok (dinsert diag field_name (.str "N/A"))

/-- `read_enhanced_diagnostics` from `main.py`: run the field loop over the
plan for the device type, then compute Signal Quality from the stored
LQI and Gateway PER entries and store it under `"Signal Quality"`. -/
def read_enhanced_diagnostics (reader : Reader) (device_id : Nat)
    (device_type : String) : Except String DMap := do
  let diagnostics ← (enhanced_registers device_type).foldlM
    (diag_step reader device_id) ([] : DMap)
  let signal_quality := get_signal_quality
    (toSQ (dlookup diagnostics "LQI"))
    (toSQ (dlookup diagnostics "Gateway PER"))
  return dinsert diagnostics "Signal Quality" (.str signal_quality)

/-- The value a planned field ends up with, written from C4: a failed (or
empty) read gives the literal `"N/A"`; a successful read is decoded by
kind, with Float32 results rounded to two decimal places. The `.pynone`
fallbacks are unreachable for well-formed readers on the actual plans. -/
def field_value (reader : Reader) (device_id : Nat)
    (field : Nat × Nat × String × String) : DiagVal :=
  match field with
  | (addr, count, _, field_type) =>
    match reader device_id addr count with
    | some (r :: rest) =>
      if field_type = "Float32" then
        match decode_float32 (r :: rest) with
        | some x => .float (round2 x)
        | none => .pynone
      else if field_type = "UINT16" ∨ field_type = "BITMAP" then .int r
      else .pynone
    | _ => .str "N/A"

/-- The diagnostics map C4 describes: one entry per planned field, in plan
order, holding `field_value`, followed by the derived Signal Quality
entry computed from the map's own LQI and Gateway PER entries. -/
def enhanced_claim (reader : Reader) (device_id : Nat)
    (device_type : String) : DMap :=
  let m : DMap := (enhanced_registers device_type).map
    (fun f => (f.2.2.1, field_value reader device_id f))
  m ++ [("Signal Quality", .str (get_signal_quality
    (toSQ (dlookup m "LQI")) (toSQ (dlookup m "Gateway PER"))))]

/-- `get_device_ids` from `main.py`: scan 100 slots at `504 + i*5` on unit
255; a truthy 1-register read whose word is neither 0 nor 0xFFFF emits
that word; everything else (read failure included) emits nothing, and
the scan never exits early. -/
def get_device_ids (reader : Reader) : List Nat :=
  let base := 504
  let step := 5
  let max_devices := 100
  (List.range max_devices).foldl
    (fun device_ids i =>
      let addr := base + i * step
      match reader 255 addr 1 with
      | some (w :: _) =>
        if w ≠ 0 ∧ w ≠ 65535 then device_ids ++ [w] else device_ids
      | _ => device_ids)
    []

/-- The device id emitted by slot `i` according to C1: the word read at
`504 + 5*i`, provided the 1-register read succeeds with a word that is
neither 0x0000 nor 0xFFFF. -/
def slot_word (reader : Reader) (i : Nat) : Option Nat :=
  match reader 255 (504 + i * 5) 1 with
  | some (w :: _) => if w ≠ 0 ∧ w ≠ 65535 then some w else none
  | _ => none

/-- C1's description of discovery: visit slots 0..99 in ascending order and
collect, in scan order and without deduplication, every emitted word. -/
def get_device_ids_claim (reader : Reader) : List Nat :=
  (List.range 100).filterMap (slot_word reader)

/-- The Commercial Reference string computed in `collect_data` and
`_collect_live_diagnostics_data`: ASCII-decode the 16 registers at
31060, or `""` when the read fails (or returns an empty list). -/
def commercial_ref (reader : Reader) (device_id : Nat) : String :=
  match reader device_id 31060 16 with
  | some (r :: rs) => decode_ascii_cached (r :: rs)
  | _ => ""

/-- The device-type chain shared by `collect_data` and
`_collect_live_diagnostics_data`. -/
def classify_ref (ref : String) : String :=
  if ref = "EMS59443" then "CL110"
  else if ref = "EMS59440" then "TH110"
  else if ref = "SMT10020" then "HeatTag"
  else "Unknown"

/-- Decidable equality for `Except` results, so witnesses can be checked
by `decide`. -/
instance {e a : Type} [DecidableEq e] [DecidableEq a] :
    DecidableEq (Except e a) := fun x y =>
  match x, y with
  | .error u, .error v =>
    if h : u = v then .isTrue (by rw [h])
    else .isFalse (fun hc => by cases hc; exact h rfl)
  | .error _, .ok _ => .isFalse (fun hc => by cases hc)
  | .ok _, .error _ => .isFalse (fun hc => by cases hc)
  | .ok u, .ok v =>
    if h : u = v then .isTrue (by rw [h])
    else .isFalse (fun hc => by cases hc; exact h rfl)

/-- The per-device record assembled by the export path `collect_data`
(identity fields default to `""` when the corresponding read fails,
as the Python dict entries do). -/
structure DeviceData where
  deviceID : Nat
  deviceType : String
  rfid : String
  serialNumber : String
  deviceName : String
  deviceLabel : String
  enhancedDiagnostics : Except String DMap
deriving DecidableEq

/-- One iteration of the device loop in `collect_data`. `enhanced_enabled`
models the GUI condition
`hasattr(log_widget, 'enhanced_diagnostics_var') and
log_widget.enhanced_diagnostics_var.get()`; diagnostics are read only
when it holds and the device type is TH110, CL110 or HeatTag, otherwise
the `EnhancedDiagnostics` entry is the empty dict. -/
def collect_device (reader : Reader) (enhanced_enabled : Bool)
    (device_id : Nat) : DeviceData :=
  let ref := commercial_ref reader device_id
  let device_type := classify_ref ref
  let rfid := match reader device_id 31026 6 with
    | some (r :: rs) => rfid_hex (r :: rs)
    | _ => ""
  let serial_number := match reader device_id 31088 10 with
    | some (r :: rs) => decode_ascii_cached (r :: rs)
    | _ => ""
  let device_name := match reader device_id 31000 10 with
    | some (r :: rs) => decode_ascii_cached (r :: rs)
    | _ => ""
  let device_label := match reader device_id 31010 3 with
    | some (r :: rs) => decode_ascii_cached (r :: rs)
    | _ => ""
  let enhanced :=
    if enhanced_enabled = true ∧
        (device_type = "TH110" ∨ device_type = "CL110" ∨
         device_type = "HeatTag") then
      read_enhanced_diagnostics reader device_id device_type
    else .ok []
  { deviceID := device_id, deviceType := device_type, rfid := rfid,
    serialNumber := serial_number, deviceName := device_name,
    deviceLabel := device_label, enhancedDiagnostics := enhanced }

/-- The per-device record assembled by the live path
`_collect_live_diagnostics_data` (name and serial fall back to
`"Unknown"` on a failed read; diagnostics are read unconditionally). -/
structure LiveDeviceData where
  deviceID : Nat
  deviceType : String
  deviceName : String
  rfid : String
  serialNumber : String
  diagnostics : Except String DMap
deriving DecidableEq

/-- One iteration of the device loop in `_collect_live_diagnostics_data`:
note that `read_enhanced_diagnostics` is called for every device,
whatever its type. -/
def live_collect_device (reader : Reader) (device_id : Nat) :
    LiveDeviceData :=
  let ref := commercial_ref reader device_id
  let device_type := classify_ref ref
  let device_name := match reader device_id 31000 10 with
    | some (r :: rs) => decode_ascii_cached (r :: rs)
    | _ => "Unknown"
  let rfid := match reader device_id 31026 6 with
    | some (r :: rs) => rfid_hex (r :: rs)
    | _ => ""
  let serial_number := match reader device_id 31088 10 with
    | some (r :: rs) => decode_ascii_cached (r :: rs)
    | _ => "Unknown"
  let diagnostics := read_enhanced_diagnostics reader device_id device_type
  { deviceID := device_id, deviceType := device_type,
    deviceName := device_name, rfid := rfid,
    serialNumber := serial_number, diagnostics := diagnostics }

/-- Drop the trailing zero words only, keeping interior zeros in place. -/
def drop_trailing_zeros (regs : List Nat) : List Nat :=
  (regs.reverse.dropWhile (fun r => r = 0)).reverse

/-- The RFID decode exactly as C7 states it: format each word as 4
uppercase hex digits, drop only the trailing zero words (interior zeros
kept in place), truncate to the first 8 characters. -/
def rfid_hex_claim_trailing (regs : List Nat) : String :=
  (sjoin ((drop_trailing_zeros regs).map hex4)).take 8

/-- The RFID decode as amended: drop every zero word, wherever it occurs,
then format and truncate to 8 characters. -/
def rfid_hex_amended (regs : List Nat) : String :=
  (sjoin ((regs.filter (fun r => r ≠ 0)).map hex4)).take 8

/-- The ASCII decode as C9 describes it (and as amended): split each word
into high byte then low byte, map bytes to their Latin-1 code points,
concatenate in order, truncate at the first NUL, trim surrounding
whitespace. -/
def decode_ascii_claim (words : List Nat) : String :=
  String.mk (py_strip (((words.map word_chars).flatten).takeWhile
    (fun c => c ≠ Char.ofNat 0)))

/-- The reader on which every read fails, used for concrete witnesses. -/
def failR : Reader := fun _ _ _ => none

/-- The reader exhibiting the C5 bug: the 2-register Gateway PER read at
31151 returns a single word, every other read fails. -/
def bad_reader : Reader :=
  fun _ addr _ => if addr = 31151 then some [16456] else none

/-- A plan entry whose declared kind is consistent: Float32 fields read two
registers, and every kind is one the field loop decodes. All entries of
`enhanced_registers` satisfy this. -/
def GoodField (f : Nat × Nat × String × String) : Prop :=
  (f.2.2.2 = "Float32" → f.2.1 = 2) ∧
  (f.2.2.2 = "Float32" ∨ f.2.2.2 = "UINT16" ∨ f.2.2.2 = "BITMAP")

theorem dinsert_fresh (m : DMap) (k : String) (v : DiagVal)
    (h : k ∉ m.map Prod.fst) : dinsert m k v = m ++ [(k, v)] := by
  have hany : m.any (fun p => p.1 = k) = false := by
    rw [List.any_eq_false]
    intro p hp
    simp only [decide_eq_true_eq]
    intro hpk
    exact h (hpk ▸ List.mem_map_of_mem Prod.fst hp)
  simp [dinsert, hany]

theorem dlookup_eq_none (m : DMap) (k : String)
    (h : k ∉ m.map Prod.fst) : dlookup m k = none := by
  induction m with
  | nil => rfl
  | cons p rest ih =>
    simp only [List.map_cons, List.mem_cons, not_or] at h
    simp [dlookup, h.1, Ne.symm h.1, ih h.2]

theorem dlookup_append_left (xs ys : DMap) (k : String)
    (h : dlookup xs k = none) : dlookup (xs ++ ys) k = dlookup ys k := by
  induction xs with
  | nil => rfl
  | cons p rest ih =>
    by_cases hpk : p.1 = k
    · simp [dlookup, hpk] at h
    · simp only [dlookup, hpk, if_false] at h
      simp only [List.cons_append, dlookup, hpk, if_false]
      exact ih h

theorem dlookup_append_some (xs ys : DMap) (k : String) (v : DiagVal)
    (h : dlookup xs k = some v) : dlookup (xs ++ ys) k = some v := by
  induction xs with
  | nil => simp [dlookup] at h
  | cons p rest ih =>
    by_cases hpk : p.1 = k
    · simp only [dlookup, hpk, if_true] at h
      simp [dlookup, hpk, h]
    · simp only [dlookup, hpk, if_false] at h
      simp only [List.cons_append, dlookup, hpk, if_false]
      exact ih h

theorem dlookup_map_plan (fv : (Nat × Nat × String × String) → DiagVal) :
    ∀ (plan : List (Nat × Nat × String × String))
      (f : Nat × Nat × String × String),
      (plan.map (fun g => g.2.2.1)).Nodup → f ∈ plan →
      dlookup (plan.map (fun g => (g.2.2.1, fv g))) f.2.2.1 = some (fv f) := by
  intro plan
  induction plan with
  | nil => intro f _ hf; cases hf
  | cons g gs ih =>
    intro f hnd hf
    rcases List.mem_cons.mp hf with rfl | hmem
    · simp [dlookup]
    · have hne : g.2.2.1 ≠ f.2.2.1 := by
        intro he
        have hin : f.2.2.1 ∈ gs.map (fun g => g.2.2.1) :=
          List.mem_map_of_mem _ hmem
        rw [← he] at hin
        exact (List.nodup_cons.mp hnd).1 hin
      simpa [dlookup, hne] using ih f (List.nodup_cons.mp hnd).2 hmem

theorem diag_step_eq (reader : Reader) (dev : Nat) (hwf : WFReader reader)
    (f : Nat × Nat × String × String) (hg : GoodField f) (diag : DMap) :
    diag_step reader dev diag f
      = .ok (dinsert diag f.2.2.1 (field_value reader dev f)) := by
  obtain ⟨addr, count, name, ftype⟩ := f
  obtain ⟨hf32, hkind⟩ := hg
  simp only at hf32 hkind ⊢
  cases h : reader dev addr count with
  | none => simp [diag_step, field_value, h]
  | some regs =>
    cases regs with
    | nil => simp [diag_step, field_value, h]
    | cons r rest =>
      by_cases hft : ftype = "Float32"
      · subst hft
        have hc2 : count = 2 := hf32 rfl
        subst hc2
        have hlen := (hwf dev addr 2 _ h).1
        simp only [List.length_cons] at hlen
        have hrest : rest.length = 1 := by omega
        obtain ⟨b, rfl⟩ := List.length_eq_one.mp hrest
        simp [diag_step, field_value, h, decode_float32]
      · rcases hkind with h1 | h1 | h1
        · exact absurd h1 hft
        · subst h1; simp [diag_step, field_value, h]
        · subst h1; simp [diag_step, field_value, h]

theorem foldlM_steps (reader : Reader) (dev : Nat) (hwf : WFReader reader) :
    ∀ (plan : List (Nat × Nat × String × String)) (diag : DMap),
      (∀ f ∈ plan, GoodField f) →
      plan.foldlM (diag_step reader dev) diag
        = .ok (plan.foldl
            (fun d f => dinsert d f.2.2.1 (field_value reader dev f)) diag) := by
  intro plan
  induction plan with
  | nil => intro diag _; rfl
  | cons f fs ih =>
    intro diag hg
    rw [List.foldlM_cons,
      diag_step_eq reader dev hwf f (hg f (List.mem_cons_self f fs)) diag]
    show fs.foldlM (diag_step reader dev) _ = _
    rw [List.foldl_cons]
    exact ih _ (fun g hgm => hg g (List.mem_cons_of_mem f hgm))

theorem foldl_dinsert_append (fv : (Nat × Nat × String × String) → DiagVal) :
    ∀ (plan : List (Nat × Nat × String × String)) (d : DMap),
      (plan.map (fun g => g.2.2.1)).Nodup →
      (∀ f ∈ plan, f.2.2.1 ∉ d.map Prod.fst) →
      plan.foldl (fun d f => dinsert d f.2.2.1 (fv f)) d
        = d ++ plan.map (fun f => (f.2.2.1, fv f)) := by
  intro plan
  induction plan with
  | nil => intro d _ _; simp
  | cons f fs ih =>
    intro d hnd hdisj
    rw [List.foldl_cons, dinsert_fresh d _ _ (hdisj f (List.mem_cons_self f fs))]
    rw [ih (d ++ [(f.2.2.1, fv f)]) (List.nodup_cons.mp hnd).2 ?fresh]
    · simp
    case fresh =>
      intro g hg
      simp only [List.map_append, List.map_cons, List.map_nil,
        List.mem_append, List.mem_cons, List.not_mem_nil, not_or]
      refine ⟨fun hin => hdisj g (List.mem_cons_of_mem f hg) hin, ?_, fun hx => hx⟩
      intro he
      have hin : g.2.2.1 ∈ List.map (fun g => g.2.2.1) fs :=
        List.mem_map_of_mem _ hg
      rw [he] at hin
      exact (List.nodup_cons.mp hnd).1 hin

theorem plan_names_nodup (t : String) :
    ((enhanced_registers t).map (fun f => f.2.2.1)).Nodup := by
  unfold enhanced_registers
  split_ifs <;> decide

theorem plan_goodfields (t : String) : ∀ f ∈ enhanced_registers t, GoodField f := by
  unfold enhanced_registers
  split_ifs <;> intro f hf <;> fin_cases hf <;>
    exact ⟨by decide, by decide⟩

theorem sq_not_plan_name (t : String) :
    "Signal Quality" ∉ (enhanced_registers t).map (fun f => f.2.2.1) := by
  unfold enhanced_registers
  split_ifs <;> decide

/-- For any well-formed reader and any device type string,
`read_enhanced_diagnostics` succeeds and returns exactly the map C4
describes: one entry per planned field in plan order, then the derived
Signal Quality entry. -/
theorem read_enhanced_eq (reader : Reader) (dev : Nat) (t : String)
    (hwf : WFReader reader) :
    read_enhanced_diagnostics reader dev t = .ok (enhanced_claim reader dev t) := by
  unfold read_enhanced_diagnostics enhanced_claim
  rw [foldlM_steps reader dev hwf _ [] (plan_goodfields t)]
  show Except.ok _ = _
  rw [foldl_dinsert_append _ _ [] (plan_names_nodup t) (by simp)]
  rw [List.nil_append]
  rw [dinsert_fresh _ _ _ (by
    rw [List.map_map]
    exact sq_not_plan_name t)]

theorem foldl_append_filterMap (step' : List Nat → Nat → List Nat)
    (g : Nat → Option Nat)
    (hstep : ∀ acc i, step' acc i = acc ++ (g i).toList) :
    ∀ (l : List Nat) (acc : List Nat),
      l.foldl step' acc = acc ++ l.filterMap g := by
  intro l
  induction l with
  | nil => intro acc; simp
  | cons i l ih =>
    intro acc
    rw [List.foldl_cons, hstep, List.filterMap_cons]
    cases h : g i with
    | none => simp [h, ih]
    | some w => simp [h, ih]

/-- C1: for every injected register reader, device discovery scans exactly
the 100 addresses `504 + 5*i` for `i = 0..99` in ascending order and
returns, in scan order and without deduplication, the word read at each
slot whenever the 1-register read succeeds with a word that is neither
0x0000 nor 0xFFFF; a failed read at a slot contributes nothing and the
scan still visits all remaining slots. -/
theorem C1_device_discovery_scan (reader : Reader) :
    get_device_ids reader = get_device_ids_claim reader := by
  unfold get_device_ids get_device_ids_claim
  rw [foldl_append_filterMap _ (slot_word reader) ?h (List.range 100) []]
  · rw [List.nil_append]
  case h =>
    intro acc i
    simp only [slot_word]
    cases h : reader 255 (504 + i * 5) 1 with
    | none => simp
    | some regs =>
      cases regs with
      | nil => simp
      | cons w ws =>
        by_cases hw : w ≠ 0 ∧ w ≠ 65535
        · simp [hw]
        · simp [hw]

/-- C2: `get_signal_quality` returns Unknown for missing, non-numeric or
NaN inputs, and otherwise follows the three-regime PER-by-LQI matrix
exactly as the claim tabulates it. -/
theorem C2_signal_quality_matrix (lqi per : SQArg) :
    get_signal_quality lqi per = signal_quality_claim lqi per := by
  cases lqi with
  | noneV => cases per <;> simp [get_signal_quality, signal_quality_claim]
  | nonNum =>
    cases per <;> simp [get_signal_quality, signal_quality_claim, sq_float]
  | val lf =>
    cases per with
    | noneV => simp [get_signal_quality, signal_quality_claim]
    | nonNum => simp [get_signal_quality, signal_quality_claim, sq_float]
    | val pf =>
      simp only [get_signal_quality, signal_quality_claim, sq_float]
      rw [if_neg (by simp)]
      cases lf <;> cases pf <;>
        simp [pyGtQ, pyLtQ, pyLeQ, pyGeQ] <;>
        split_ifs <;>
        first
          | rfl
          | (exfalso
             simp only [not_and_or, not_lt, not_le] at *
             try casesm* _ ∨ _
             all_goals linarith)

/-- C2 witness: a concrete instance of the matrix, LQI 70 and PER 5 are
classified Excellent by both the code and the claim. -/
theorem C2_signal_quality_matrix_witness :
    get_signal_quality (.val (.finite 70)) (.val (.finite 5))
      = signal_quality_claim (.val (.finite 70)) (.val (.finite 5)) ∧
    get_signal_quality (.val (.finite 70)) (.val (.finite 5)) = "Excellent" :=
  ⟨C2_signal_quality_matrix (.val (.finite 70)) (.val (.finite 5)), by decide⟩

/-- C3: device type classification is a pure function of the decoded
Commercial Reference: EMS59443 ↦ CL110, EMS59440 ↦ TH110,
SMT10020 ↦ HeatTag, anything else (including the empty string produced
by a failed read) ↦ Unknown; both the export path and the live path
classify with this function applied to the decoded reference. -/
theorem C3_device_classification :
    classify_ref "EMS59443" = "CL110" ∧
    classify_ref "EMS59440" = "TH110" ∧
    classify_ref "SMT10020" = "HeatTag" ∧
    classify_ref "" = "Unknown" ∧
    (∀ s : String, s ≠ "EMS59443" → s ≠ "EMS59440" → s ≠ "SMT10020" →
      classify_ref s = "Unknown") ∧
    (∀ (reader : Reader) (e : Bool) (dev : Nat),
      (collect_device reader e dev).deviceType
        = classify_ref (commercial_ref reader dev)) ∧
    (∀ (reader : Reader) (dev : Nat),
      (live_collect_device reader dev).deviceType
        = classify_ref (commercial_ref reader dev)) := by
  refine ⟨rfl, rfl, rfl, rfl, ?_, ?_, ?_⟩
  · intro s h1 h2 h3
    simp [classify_ref, h1, h2, h3]
  · intro reader e dev; rfl
  · intro reader dev; rfl

/-- C3 witness: the classification theorem applied at the concrete
reference "XYZ", which is none of the three known signatures. -/
theorem C3_device_classification_witness : classify_ref "XYZ" = "Unknown" :=
  C3_device_classification.2.2.2.2.1 "XYZ" (by decide) (by decide) (by decide)

theorem failR_wf : WFReader failR := by
  intro dev addr count regs h
  exact Option.noConfusion h

theorem dlookup_isSome_of_mem (m : DMap) (k : String)
    (h : k ∈ m.map Prod.fst) : ∃ v, dlookup m k = some v := by
  induction m with
  | nil => simp at h
  | cons p rest ih =>
    by_cases hpk : p.1 = k
    · exact ⟨p.2, by simp [dlookup, hpk]⟩
    · simp only [List.map_cons, List.mem_cons] at h
      rcases h with h | h
      · exact absurd h.symm hpk
      · obtain ⟨v, hv⟩ := ih h
        exact ⟨v, by simp [dlookup, hpk, hv]⟩

theorem lqi_per_in_plan (t : String) :
    "LQI" ∈ (enhanced_registers t).map (fun f => f.2.2.1) ∧
    "Gateway PER" ∈ (enhanced_registers t).map (fun f => f.2.2.1) := by
  unfold enhanced_registers
  split_ifs <;> exact ⟨by decide, by decide⟩

theorem gsq_nonNum_left (x : SQArg) :
    get_signal_quality .nonNum x = "Unknown" := by
  cases x <;> rfl

theorem gsq_nonNum_right (x : SQArg) :
    get_signal_quality x .nonNum = "Unknown" := by
  cases x <;> rfl

/-- C4: for every device of one of the three known types and every reader
satisfying the read contract, `read_enhanced_diagnostics` returns the map
with one entry per planned field — decoded value on success (Float32
rounded to two decimals), the literal `"N/A"` on failure, key never
omitted — and each planned field can be looked up in that map. -/
theorem C4_diagnostics_plan_complete (reader : Reader) (dev : Nat)
    (t : String) (hwf : WFReader reader)
    (_ht : t = "TH110" ∨ t = "CL110" ∨ t = "HeatTag") :
    read_enhanced_diagnostics reader dev t
      = .ok (enhanced_claim reader dev t) ∧
    ∀ f ∈ enhanced_registers t,
      dlookup (enhanced_claim reader dev t) f.2.2.1
        = some (field_value reader dev f) := by
  refine ⟨read_enhanced_eq reader dev t hwf, ?_⟩
  intro f hf
  have h1 := dlookup_map_plan (field_value reader dev)
    (enhanced_registers t) f (plan_names_nodup t) hf
  unfold enhanced_claim
  exact dlookup_append_some _ _ _ _ h1

/-- C4 witness: the theorem applied to the all-reads-fail reader and a
TH110 device; the resulting map holds `"N/A"` for all eight planned
fields and `"Unknown"` for the derived Signal Quality. -/
theorem C4_diagnostics_plan_complete_witness :
    read_enhanced_diagnostics failR 3 "TH110"
      = .ok (enhanced_claim failR 3 "TH110") ∧
    enhanced_claim failR 3 "TH110" =
      [("RF Communication Validity", .str "N/A"),
       ("Communication Status", .str "N/A"),
       ("Gateway PER", .str "N/A"),
       ("RSSI", .str "N/A"),
       ("LQI", .str "N/A"),
       ("PER Max", .str "N/A"),
       ("RSSI Min", .str "N/A"),
       ("LQI Min", .str "N/A"),
       ("Signal Quality", .str "Unknown")] :=
  ⟨(C4_diagnostics_plan_complete failR 3 "TH110" failR_wf (Or.inl rfl)).1,
    by decide⟩

/-- C5: contrary to the claim, a Float32 field whose read returns a word
count other than 2 is not stored as a placeholder: `decode_float32`
itself returns `None`, but the caller immediately evaluates
`round(None, 2)`, raising `TypeError` and aborting the whole
diagnostics read for the device. -/
theorem C5_float32_wrong_count_raises :
    decode_float32 [16456] = none ∧
    read_enhanced_diagnostics bad_reader 1 "TH110"
      = .error "TypeError: type NoneType doesn't define __round__ method" :=
  ⟨rfl, by decide⟩

/-- C10: whenever `read_enhanced_diagnostics` returns a map — for any
device type string, known or not — that map contains the key
`"Signal Quality"`, whose value is `get_signal_quality` applied to the
map's own LQI and Gateway PER entries; in particular it is `"Unknown"`
whenever either of those entries is the `"N/A"` read-failure sentinel. -/
theorem C10_signal_quality_always_present (reader : Reader) (dev : Nat)
    (t : String) (m : DMap) (hwf : WFReader reader)
    (hok : read_enhanced_diagnostics reader dev t = .ok m) :
    dlookup m "Signal Quality"
      = some (.str (get_signal_quality (toSQ (dlookup m "LQI"))
          (toSQ (dlookup m "Gateway PER")))) ∧
    ((dlookup m "LQI" = some (.str "N/A") ∨
      dlookup m "Gateway PER" = some (.str "N/A")) →
      dlookup m "Signal Quality" = some (.str "Unknown")) := by
  have hm : m = enhanced_claim reader dev t := by
    have heq := read_enhanced_eq reader dev t hwf
    rw [hok] at heq
    exact Except.ok.inj heq
  subst hm
  have hkeys : (((enhanced_registers t).map
      (fun f => (f.2.2.1, field_value reader dev f))).map Prod.fst)
      = (enhanced_registers t).map (fun f => f.2.2.1) := by
    rw [List.map_map]; rfl
  have hsq_none : dlookup ((enhanced_registers t).map
      (fun f => (f.2.2.1, field_value reader dev f))) "Signal Quality"
      = none := by
    exact dlookup_eq_none _ _ (by rw [hkeys]; exact sq_not_plan_name t)
  obtain ⟨vl, hvl⟩ := dlookup_isSome_of_mem
    ((enhanced_registers t).map (fun f => (f.2.2.1, field_value reader dev f)))
    "LQI" (by rw [hkeys]; exact (lqi_per_in_plan t).1)
  obtain ⟨vp, hvp⟩ := dlookup_isSome_of_mem
    ((enhanced_registers t).map (fun f => (f.2.2.1, field_value reader dev f)))
    "Gateway PER" (by rw [hkeys]; exact (lqi_per_in_plan t).2)
  have hA : dlookup (enhanced_claim reader dev t) "Signal Quality"
      = some (.str (get_signal_quality
          (toSQ (some vl)) (toSQ (some vp)))) := by
    unfold enhanced_claim
    rw [dlookup_append_left _ _ _ hsq_none, hvl, hvp]
    simp [dlookup]
  have hB : dlookup (enhanced_claim reader dev t) "LQI" = some vl := by
    unfold enhanced_claim
    exact dlookup_append_some _ _ _ _ hvl
  have hC : dlookup (enhanced_claim reader dev t) "Gateway PER" = some vp := by
    unfold enhanced_claim
    exact dlookup_append_some _ _ _ _ hvp
  constructor
  · rw [hA, hB, hC]
  · intro hna
    rw [hA]
    rcases hna with hna | hna
    · rw [hB] at hna
      have hv : vl = .str "N/A" := Option.some.inj hna
      subst hv
      rw [show toSQ (some (DiagVal.str "N/A")) = SQArg.nonNum from rfl,
        gsq_nonNum_left]
    · rw [hC] at hna
      have hv : vp = .str "N/A" := Option.some.inj hna
      subst hv
      rw [show toSQ (some (DiagVal.str "N/A")) = SQArg.nonNum from rfl,
        gsq_nonNum_right]

/-- C10 witness: the theorem applied to the all-reads-fail reader with the
unknown device type "XYZ"; both LQI and Gateway PER are `"N/A"` there
and the Signal Quality entry evaluates to `"Unknown"`. -/
theorem C10_signal_quality_always_present_witness :
    dlookup (enhanced_claim failR 2 "XYZ") "Signal Quality"
      = some (.str (get_signal_quality
          (toSQ (dlookup (enhanced_claim failR 2 "XYZ") "LQI"))
          (toSQ (dlookup (enhanced_claim failR 2 "XYZ") "Gateway PER")))) ∧
    dlookup (enhanced_claim failR 2 "XYZ") "Signal Quality"
      = some (.str "Unknown") :=
  ⟨(C10_signal_quality_always_present failR 2 "XYZ"
      (enhanced_claim failR 2 "XYZ") failR_wf
      (read_enhanced_eq failR 2 "XYZ" failR_wf)).1,
    by decide⟩

/-- C6 counterexample: in the live-diagnostics path, a device whose reads
all fail is classified Unknown, yet `read_enhanced_diagnostics` is still
called for it and its diagnostics map is the non-empty map of the eight
common fields plus Signal Quality — refuting "diagnostics reading is
skipped entirely: ... its diagnostics map is empty". -/
theorem C6_unknown_diagnostics_cex :
    (live_collect_device failR 7).deviceType = "Unknown" ∧
    (live_collect_device failR 7).diagnostics =
      .ok [("RF Communication Validity", .str "N/A"),
           ("Communication Status", .str "N/A"),
           ("Gateway PER", .str "N/A"),
           ("RSSI", .str "N/A"),
           ("LQI", .str "N/A"),
           ("PER Max", .str "N/A"),
           ("RSSI Min", .str "N/A"),
           ("LQI Min", .str "N/A"),
           ("Signal Quality", .str "Unknown")] ∧
    ([("RF Communication Validity", DiagVal.str "N/A"),
      ("Communication Status", .str "N/A"),
      ("Gateway PER", .str "N/A"),
      ("RSSI", .str "N/A"),
      ("LQI", .str "N/A"),
      ("PER Max", .str "N/A"),
      ("RSSI Min", .str "N/A"),
      ("LQI Min", .str "N/A"),
      ("Signal Quality", .str "Unknown")] : DMap) ≠ [] :=
  ⟨rfl, by decide, by decide⟩

/-- C6 as amended: in the export path `collect_data`, a device classified
Unknown gets the empty diagnostics map whatever the GUI flag; in the
live path `_collect_live_diagnostics_data`, diagnostics are read for
every device regardless of type, so an Unknown device gets the map of
the eight common fields plus Signal Quality. -/
theorem C6_unknown_diagnostics_amended (reader : Reader) (e : Bool)
    (dev : Nat) (hwf : WFReader reader) :
    ((collect_device reader e dev).deviceType = "Unknown" →
      (collect_device reader e dev).enhancedDiagnostics = .ok []) ∧
    ((live_collect_device reader dev).deviceType = "Unknown" →
      (live_collect_device reader dev).diagnostics
        = .ok (enhanced_claim reader dev "Unknown")) := by
  constructor
  · intro h
    simp only [collect_device] at h ⊢
    rw [h]
    simp
  · intro h
    simp only [live_collect_device] at h ⊢
    rw [h]
    exact read_enhanced_eq reader dev "Unknown" hwf

/-- C6 amended witness: the amended theorem applied to the all-reads-fail
reader, whose devices are all classified Unknown. -/
theorem C6_unknown_diagnostics_amended_witness :
    (collect_device failR true 7).enhancedDiagnostics = .ok [] ∧
    (live_collect_device failR 7).diagnostics
      = .ok (enhanced_claim failR 7 "Unknown") :=
  ⟨(C6_unknown_diagnostics_amended failR true 7 failR_wf).1 (by decide),
   (C6_unknown_diagnostics_amended failR true 7 failR_wf).2 (by decide)⟩

/-- C7 counterexample: on the register list [0x0000, 0x0012] the code drops
the interior zero word and yields "0012", while the claim's
trailing-only rule would keep it in place and yield "00000012". -/
theorem C7_rfid_cex :
    rfid_hex [0, 18] = "0012" ∧
    rfid_hex_claim_trailing [0, 18] = "00000012" := by
  exact ⟨by decide, by decide⟩

/-- C7 as amended: the RFID decode drops every zero word, wherever it
occurs, formats the remaining words as 4 uppercase hex digits each in
register order and truncates to the first 8 characters; in particular
[0x0012, 0, 0, 0] decodes to "0012". -/
theorem C7_rfid_amended (regs : List Nat) :
    rfid_hex regs = rfid_hex_amended regs ∧
    rfid_hex [18, 0, 0, 0] = "0012" := by
  constructor
  · unfold rfid_hex rfid_hex_amended
    have hf : regs.filter (fun r => 0 < r) = regs.filter (fun r => r ≠ 0) := by
      apply List.filter_congr
      intro r _
      simp [Nat.pos_iff_ne_zero]
    rw [hf]
  · decide

/-- C8 counterexample: the string "N/A" is not integer-parseable, yet the
decoder returns "N/A", not "Invalid (N/A)" as the claim's
invalid-input clause requires. -/
theorem C8_heattag_cex :
    decode_heattag_alarm_type (.pstr "N/A") = "N/A" ∧
    decode_heattag_alarm_type (.pstr "N/A") ≠ "Invalid (N/A)" := by
  exact ⟨by decide, by decide⟩

/-- C8 as amended: the alarm-type decoder maps 0 to No alarm, 1–15 to Low,
16–93 to Medium, 99 to Test alarm (taking precedence over the high
range), every other value in 94–190 to High, any other integer n to
"Unknown (n)", and any non-integer-parseable input to
"Invalid (value)" — except `None` and the read-failure sentinel "N/A",
which pass through as "N/A". -/
theorem C8_heattag_amended (v : PyVal) :
    decode_heattag_alarm_type v = heattag_alarm_claim v := by
  unfold decode_heattag_alarm_type heattag_alarm_claim
  by_cases hna : v = .pnone ∨ v = .pstr "N/A"
  · rw [if_pos hna, if_pos hna]
  · rw [if_neg hna, if_neg hna]
    cases hp : py_int_value v with
    | none => rfl
    | some n =>
      dsimp only
      split_ifs <;> first | rfl | (exfalso; omega)

/-- C9 counterexample: the words [0x4142, 0x4300] hold the bytes
41 42 43 00 (high byte first), so the decode is "ABC", not the "AB"
the claim's example asserts. -/
theorem C9_ascii_cex :
    decode_ascii_cached [16706, 17152] = "ABC" ∧
    decode_ascii_cached [16706, 17152] ≠ "AB" := by
  exact ⟨by decide, by decide⟩

/-- C9 as amended: the ASCII decoder splits each word into high byte then
low byte, maps bytes to their Latin-1 code points, concatenates in
order, truncates at the first NUL and trims surrounding whitespace;
the empty list decodes to "", and [0x4142, 0x4300] decodes to "ABC". -/
theorem C9_ascii_amended :
    decode_ascii_cached [] = "" ∧
    decode_ascii_cached [16706, 17152] = "ABC" ∧
    ∀ words : List Nat, decode_ascii_cached words = decode_ascii_claim words := by
  refine ⟨rfl, by decide, ?_⟩
  intro words
  cases words with
  | nil => rfl
  | cons r rs => rfl
